import Mathlib

/-!
Shallow embedding of the mini_rest HTTP server (src/src/server.rs and
src/src/lib.rs) and verification of its natural-language specification.

Rust byte buffers and strings are modelled as `List Char` (the code decodes
its accumulated buffer with `String::from_utf8(..).unwrap()` before every
inspection, so the byte stream is always treated as UTF-8 text); `usize` and
`i32` become `Nat`/`Int` with the explicit range checks the Rust parsers
perform; a Rust `unwrap` panic is modelled as `Option.none`.
-/

namespace MiniRest

/-- UTF-8 size in bytes of one scalar value; `byteLen` recovers the Rust
`Vec<u8>`/`str` byte length of a decoded text. -/
def charBytes (c : Char) : Nat :=
  if c.toNat < 128 then 1
  else if c.toNat < 2048 then 2
  else if c.toNat < 65536 then 3
  else 4

def byteLen (l : List Char) : Nat := (l.map charBytes).sum

/-- Split a character list at every occurrence of `c` (Rust `str::split`,
which keeps empty fragments). `acc` holds the current fragment reversed. -/
def splitOnAux (c : Char) : List Char → List Char → List (List Char)
  | [], acc => [acc.reverse]
  | x :: xs, acc =>
    if x = c then acc.reverse :: splitOnAux c xs []
    else splitOnAux c xs (x :: acc)

def splitChar (c : Char) (s : List Char) : List (List Char) := splitOnAux c s []

/-- Drop one trailing carriage return (what Rust `str::lines` does to each
line). -/
def stripCR (l : List Char) : List Char :=
  if l.getLast? = some '\r' then l.dropLast else l

/-- Model of Rust `str::lines`: split at each line feed, drop the final
fragment when the text ends with a line feed, strip one trailing carriage
return from every line. -/
def rustLines (s : List Char) : List (List Char) :=
  let parts := splitChar '\n' s
  let parts2 := if parts.getLast? = some [] then parts.dropLast else parts
  parts2.map stripCR

/-- Model of Rust `str::trim` (drop leading and trailing whitespace). -/
def trimChars (l : List Char) : List Char :=
  ((l.dropWhile Char.isWhitespace).reverse.dropWhile Char.isWhitespace).reverse

/-- Decimal value of a digit list. -/
def digitsToNat (l : List Char) : Nat := l.foldl (fun a c => a * 10 + (c.toNat - 48)) 0

/-- Model of Rust `str::parse::<usize>`: an optional leading plus sign, then
one or more ASCII digits, rejecting values that overflow 64 bits. -/
def parseUsize (l : List Char) : Option Nat :=
  let l2 := if l.head? = some '+' then l.tail else l
  if l2 ≠ [] ∧ l2.all Char.isDigit ∧ digitsToNat l2 < 2 ^ 64 then
    some (digitsToNat l2)
  else none

/-- Model of Rust `str::parse::<i32>`: an optional sign, then one or more
ASCII digits, rejecting values outside the 32-bit signed range. -/
def parseI32 (l : List Char) : Option Int :=
  let sign : Int := if l.head? = some '-' then -1 else 1
  let l2 := if l.head? = some '-' ∨ l.head? = some '+' then l.tail else l
  if l2 ≠ [] ∧ l2.all Char.isDigit ∧
      -(2 ^ 31) ≤ sign * (digitsToNat l2 : Int) ∧ sign * (digitsToNat l2 : Int) < 2 ^ 31 then
    some (sign * (digitsToNat l2 : Int))
  else none

def contentLengthKey : List Char := "Content-Length:".data

/-- Embedding of `get_content_length` (server.rs lines 181-187): find the
first line starting with `Content-Length:`, take the second token of its
split at single spaces, trim it and parse it as `usize`. -/
def get_content_length (request : List Char) : Option Nat :=
  (((rustLines request).find? (fun line => contentLengthKey.isPrefixOf line)).bind
      (fun line => (splitChar ' ' line)[1]?)).bind
    (fun value => parseUsize (trimChars value))

/-- The per-connection mutable state of `handle_client` (server.rs lines
131-133): the accumulated bytes and the stored content length. -/
structure ConnState where
  content : List Char
  content_length : Nat

def response_body : List Char := "<h1>Hello, world!</h1>".data

/-- The response string `handle_client` formats (server.rs lines 160-165). -/
def exampleResponse : List Char :=
  "HTTP/1.1 200 OK\r\nContent-Type: text/html\r\nContent-Length: ".data
    ++ (Nat.repr (byteLen response_body)).data
    ++ "\r\nConnection: keep-alive\r\n\r\n".data
    ++ response_body

/-- One iteration of the `Ok(size)` arm of the read loop in `handle_client`
(server.rs lines 141-172): extend the buffer with the chunk, store the
content length if it is still zero and the accumulated text yields one, and
write the example response whenever the accumulated buffer is under 1024
bytes. Returns the new state and the list of responses written. -/
def handle_client_read (s : ConnState) (chunk : List Char) : ConnState × List (List Char) :=
  let content := s.content ++ chunk
  let cl :=
    if s.content_length = 0 then
      match get_content_length content with
      | some length => length
      | none => s.content_length
    else s.content_length
  let out := if byteLen content < 1024 then [exampleResponse] else []
  (⟨content, cl⟩, out)

/-- The read loop of `handle_client` over a list of successful non-empty
reads, accumulating every response written to the socket. -/
def handle_client_reads : ConnState → List (List Char) → ConnState × List (List Char)
  | s, [] => (s, [])
  | s, chunk :: rest =>
    let step := handle_client_read s chunk
    let next := handle_client_reads step.1 rest
    (next.1, step.2 ++ next.2)

def initState : ConnState := ⟨[], 0⟩

/-- Embedding of `Server` (server.rs line 7): it owns only the address
string. There is no route table field anywhere in the source. -/
structure Server where
  address : String

/-- `server::new` (server.rs lines 100-102). -/
def new (addr : String) : Server := ⟨addr⟩

/-- Embedding of `add_route` (server.rs lines 64-70): the body only prints
the path; the handler argument is discarded and the server is unchanged. -/
def add_route {α : Type} (s : Server) (path : String) (handler : α) : Server := s

/-- Rust `str::split_once`: split at the first occurrence of `c`. -/
def splitOnce (c : Char) : List Char → Option (List Char × List Char)
  | [] => none
  | x :: xs =>
    if x = c then some ([], xs)
    else (splitOnce c xs).map (fun p => (x :: p.1, p.2))

/-- `ServerInfo::ip` (server.rs lines 78-81); the `unwrap` panic on a
missing separator is modelled as `none`. -/
def Server.ip (s : Server) : Option (List Char) :=
  (splitOnce ':' s.address.data).map Prod.fst

/-- `ServerInfo::port` (server.rs lines 83-86); the `unwrap` panics on a
missing separator or failed `i32` parse are modelled as `none`. -/
def Server.port (s : Server) : Option Int :=
  (splitOnce ':' s.address.data).bind (fun p => parseI32 p.2)

/-- The reconstruction the spec's round-trip law describes: concatenate
`ip()`, a colon, and the decimal rendering of `port()`. -/
def Server.reconstruct (s : Server) : Option (List Char) :=
  s.ip.bind (fun i => s.port.map (fun p => i ++ ':' :: (toString p).data))

/-! ## Helper lemmas about the splitting primitives -/

lemma splitOnAux_of_not_mem (c : Char) {xs : List Char} (h : c ∉ xs) (acc : List Char) :
    splitOnAux c xs acc = [acc.reverse ++ xs] := by
  induction xs generalizing acc with
  | nil => simp [splitOnAux]
  | cons x xs ih =>
    have hx : ¬(x = c) := by
      rintro rfl
      exact h (List.mem_cons_self x xs)
    have h' : c ∉ xs := fun m => h (List.mem_cons_of_mem _ m)
    simp [splitOnAux, hx, ih h']

lemma splitOnAux_append (c : Char) {xs : List Char} (h : c ∉ xs) (ys acc : List Char) :
    splitOnAux c (xs ++ c :: ys) acc = (acc.reverse ++ xs) :: splitOnAux c ys [] := by
  induction xs generalizing acc with
  | nil => simp [splitOnAux]
  | cons x xs ih =>
    have hx : ¬(x = c) := by
      rintro rfl
      exact h (List.mem_cons_self x xs)
    have h' : c ∉ xs := fun m => h (List.mem_cons_of_mem _ m)
    simp [splitOnAux, hx, ih h']

lemma splitChar_append (c : Char) {xs : List Char} (h : c ∉ xs) (ys : List Char) :
    splitChar c (xs ++ c :: ys) = xs :: splitChar c ys := by
  simp [splitChar, splitOnAux_append c h ys []]

lemma splitChar_of_not_mem (c : Char) {xs : List Char} (h : c ∉ xs) :
    splitChar c xs = [xs] := by
  simp [splitChar, splitOnAux_of_not_mem c h []]

lemma stripCR_concat (xs : List Char) : stripCR (xs ++ ['\r']) = xs := by
  simp [stripCR]

lemma dropWhile_of_forall_not {p : Char → Bool} {l : List Char} (h : ∀ c ∈ l, p c = false) :
    l.dropWhile p = l := by
  cases l with
  | nil => rfl
  | cons a l => simp [List.dropWhile_cons, h a (List.mem_cons_self a l)]

lemma trimChars_of_forall_not {l : List Char} (h : ∀ c ∈ l, c.isWhitespace = false) :
    trimChars l = l := by
  unfold trimChars
  rw [dropWhile_of_forall_not h,
    dropWhile_of_forall_not (fun c hc => h c (List.mem_reverse.mp hc)),
    List.reverse_reverse]

lemma isPrefixOf_append_self (l t : List Char) : l.isPrefixOf (l ++ t) = true := by
  induction l with
  | nil => simp [List.isPrefixOf]
  | cons a l ih => simp [List.isPrefixOf, ih]

lemma isDigit_facts {c : Char} (h : c.isDigit = true) :
    c ≠ '\n' ∧ c ≠ ' ' ∧ c ≠ '+' ∧ c ≠ '-' ∧ c ≠ ':' ∧ c.isWhitespace = false := by
  refine ⟨?_, ?_, ?_, ?_, ?_, ?_⟩
  · rintro rfl; exact absurd h (by decide)
  · rintro rfl; exact absurd h (by decide)
  · rintro rfl; exact absurd h (by decide)
  · rintro rfl; exact absurd h (by decide)
  · rintro rfl; exact absurd h (by decide)
  · cases hb : c.isWhitespace with
    | false => rfl
    | true =>
      exfalso
      have hc : ((c = ' ' ∨ c = '\t') ∨ c = '\r') ∨ c = '\n' := by
        simpa [Char.isWhitespace] using hb
      rcases hc with ((rfl | rfl) | rfl) | rfl <;> exact absurd h (by decide)

lemma splitOnce_append (c : Char) {h : List Char} (hn : c ∉ h) (t : List Char) :
    splitOnce c (h ++ c :: t) = some (h, t) := by
  induction h with
  | nil => simp [splitOnce]
  | cons x xs ih =>
    have hx : ¬(x = c) := by
      rintro rfl
      exact hn (List.mem_cons_self x xs)
    have h' : c ∉ xs := fun m => hn (List.mem_cons_of_mem _ m)
    simp [splitOnce, hx, ih h']

lemma splitOnce_of_not_mem (c : Char) {l : List Char} (hn : c ∉ l) :
    splitOnce c l = none := by
  induction l with
  | nil => rfl
  | cons x xs ih =>
    have hx : ¬(x = c) := by
      rintro rfl
      exact hn (List.mem_cons_self x xs)
    have h' : c ∉ xs := fun m => hn (List.mem_cons_of_mem _ m)
    simp [splitOnce, hx, ih h']

lemma parseUsize_digits {p : List Char} (hne : p ≠ []) (hd : p.all Char.isDigit = true)
    (hlt : digitsToNat p < 2 ^ 64) : parseUsize p = some (digitsToNat p) := by
  have hall : ∀ c ∈ p, c.isDigit = true := by simpa using hd
  obtain ⟨a, t, rfl⟩ : ∃ a t, p = a :: t := by
    cases p with
    | nil => exact absurd rfl hne
    | cons a t => exact ⟨a, t, rfl⟩
  have ha : a.isDigit = true := hall a (List.mem_cons_self a t)
  have c1 : ¬(a = '+') := (isDigit_facts ha).2.2.1
  simp [parseUsize, c1, hne, hd]
  exact hlt

lemma parseI32_digits {p : List Char} (hne : p ≠ []) (hd : p.all Char.isDigit = true)
    (hlt : (digitsToNat p : Int) < 2 ^ 31) :
    parseI32 p = some ((digitsToNat p : Int)) := by
  have hall : ∀ c ∈ p, c.isDigit = true := by simpa using hd
  obtain ⟨a, t, rfl⟩ : ∃ a t, p = a :: t := by
    cases p with
    | nil => exact absurd rfl hne
    | cons a t => exact ⟨a, t, rfl⟩
  have ha : a.isDigit = true := hall a (List.mem_cons_self a t)
  have c1 : ¬(a = '-') := (isDigit_facts ha).2.2.2.1
  have c3 : ¬(a = '+') := (isDigit_facts ha).2.2.1
  have hnn : (-2147483648 : Int) ≤ ((digitsToNat (a :: t) : Int)) :=
    le_trans (by norm_num) (Int.natCast_nonneg _)
  have hltn : digitsToNat (a :: t) < 2147483648 := by exact_mod_cast hlt
  simp [parseI32, c1, c3, hne, hd, hnn, hltn]

lemma find?_append_of_none {α : Type} {p : α → Bool} {l1 : List α}
    (h : ∀ x ∈ l1, p x = false) (l2 : List α) :
    (l1 ++ l2).find? p = l2.find? p := by
  induction l1 with
  | nil => rfl
  | cons a t ih =>
    rw [List.cons_append, List.find?_cons_of_neg _ (by simp [h a (List.mem_cons_self a t)])]
    exact ih (fun x hx => h x (List.mem_cons_of_mem _ hx))

lemma handle_client_read_content (s : ConnState) (chunk : List Char) :
    (handle_client_read s chunk).1.content = s.content ++ chunk := rfl

lemma handle_client_reads_content (chunks : List (List Char)) (s : ConnState) :
    (handle_client_reads s chunks).1.content = s.content ++ chunks.flatten := by
  induction chunks generalizing s with
  | nil => simp [handle_client_reads]
  | cons c cs ih =>
    simp [handle_client_reads, ih, handle_client_read_content, List.append_assoc]

/-! ## Claim theorems -/

/-- Claim C1: the claim fails on the code. `handle_client` writes the example
response on every read whose accumulated buffer is under 1024 bytes (server.rs
line 156), not once per framed request: feeding a valid request in one chunk
produces one response, but feeding the same bytes as two non-empty chunks
produces two responses. -/
theorem C1_fragmentation_bug :
    "GET / HTTP/1.1\r\n".data ++ "\r\n".data = "GET / HTTP/1.1\r\n\r\n".data
    ∧ "GET / HTTP/1.1\r\n".data ≠ ([] : List Char)
    ∧ "\r\n".data ≠ ([] : List Char)
    ∧ (handle_client_reads initState ["GET / HTTP/1.1\r\n\r\n".data]).2 = [exampleResponse]
    ∧ (handle_client_reads initState ["GET / HTTP/1.1\r\n".data, "\r\n".data]).2
        = [exampleResponse, exampleResponse] := by
  decide

/-- Claim C2: the claim fails on the code. `add_route` only prints the path:
it discards its handler argument and leaves the server unchanged, so no
(method, path, handler) mapping is ever stored and no lookup can return the
registered handler (the source has no route table and no lookup at all). -/
theorem C2_add_route_discards_handler :
    ∀ (s : Server) (p : String) (hdl : Unit → Unit), add_route s p hdl = s :=
  fun _ _ _ => rfl

/-- Claim C3: the claim fails on the code. Feeding the concatenation of two
valid requests produces a single hardcoded response, the buffer keeps both
requests concatenated with no boundary ever computed, and no per-request
value is yielded — there is no framing cycle that could return R1 and then
R2. -/
theorem C3_pipelining_bug :
    (handle_client_reads initState
        ["GET /a HTTP/1.1\r\n\r\nGET /b HTTP/1.1\r\n\r\n".data]).2 = [exampleResponse]
    ∧ (handle_client_reads initState
        ["GET /a HTTP/1.1\r\n\r\nGET /b HTTP/1.1\r\n\r\n".data]).1.content
        = "GET /a HTTP/1.1\r\n\r\nGET /b HTTP/1.1\r\n\r\n".data
    ∧ (handle_client_reads initState
        ["GET /a HTTP/1.1\r\n\r\nGET /b HTTP/1.1\r\n\r\n".data]).1.content_length = 0 := by
  decide

/-- Claim C5: the claim fails on the code. A request carrying
`Connection: close` still gets the fixed response whose header says
`Connection: keep-alive`, and the read-loop state offers no close transition:
every read just appends to the buffer and continues, so the client header is
never honored. -/
theorem C5_connection_close_ignored :
    (handle_client_reads initState
        ["GET / HTTP/1.1\r\nConnection: close\r\n\r\n".data]).2 = [exampleResponse]
    ∧ exampleResponse
        = ("HTTP/1.1 200 OK\r\nContent-Type: text/html\r\nContent-Length: 22\r\nConnection: keep-alive\r\n\r\n".data
            ++ response_body)
    ∧ ∀ (s : ConnState) (chunk : List Char),
        (handle_client_read s chunk).1.content = s.content ++ chunk := by
  refine ⟨by decide, by decide, fun s chunk => rfl⟩

/-- Claim C6: the claim fails on the code. A request declaring a huge
`Content-Length` is stored verbatim and answered with the 200 example
response — no 413/431 is ever produced, the connection is not closed, and the
accumulated buffer always equals everything ever read, so per-connection
memory is unbounded. -/
theorem C6_no_size_caps :
    (handle_client_reads initState
        ["POST / HTTP/1.1\r\nContent-Length: 999999999\r\n\r\n".data]).1.content_length
        = 999999999
    ∧ (handle_client_reads initState
        ["POST / HTTP/1.1\r\nContent-Length: 999999999\r\n\r\n".data]).2 = [exampleResponse]
    ∧ ∀ chunks : List (List Char),
        (handle_client_reads initState chunks).1.content = chunks.flatten := by
  refine ⟨by decide, by decide, fun chunks => ?_⟩
  simpa [initState] using handle_client_reads_content chunks initState

/-- Claim C10: confirmed. Any two reads whose accumulated buffer stays under
1024 bytes produce byte-identical output — the single fixed 200 response with
body `<h1>Hello, world!</h1>` — independent of connection state and chunk
contents, and `add_route` discards its handler, so no registered handler can
influence the response. -/
theorem C10_response_independent_of_request :
    ∀ (s1 s2 : ConnState) (c1 c2 : List Char),
      byteLen (s1.content ++ c1) < 1024 → byteLen (s2.content ++ c2) < 1024 →
      (handle_client_read s1 c1).2 = [exampleResponse]
      ∧ (handle_client_read s1 c1).2 = (handle_client_read s2 c2).2
      ∧ exampleResponse
          = "HTTP/1.1 200 OK\r\nContent-Type: text/html\r\nContent-Length: 22\r\nConnection: keep-alive\r\n\r\n<h1>Hello, world!</h1>".data
      ∧ ∀ (srv : Server) (p : String) (hdl : Unit → Unit), add_route srv p hdl = srv := by
  intro s1 s2 c1 c2 h1 h2
  have e1 : (handle_client_read s1 c1).2 = [exampleResponse] := by
    simp [handle_client_read, h1]
  have e2 : (handle_client_read s2 c2).2 = [exampleResponse] := by
    simp [handle_client_read, h2]
  exact ⟨e1, by rw [e1, e2], by decide, fun _ _ _ => rfl⟩

/-- Witness for C10 at two concrete dissimilar reads. -/
theorem C10_witness :
    (handle_client_read initState "GET /a HTTP/1.1\r\n\r\n".data).2
      = (handle_client_read ⟨"POST /b HTTP/1.1\r\nAccept: x\r\n\r\n".data, 5⟩ "y".data).2 :=
  (C10_response_independent_of_request initState
      ⟨"POST /b HTTP/1.1\r\nAccept: x\r\n\r\n".data, 5⟩
      "GET /a HTTP/1.1\r\n\r\n".data "y".data (by decide) (by decide)).2.1

/-- Counterexample to claim C7: for the address `1.2.3.4:99999` the port
accessor succeeds with 99999 even though 99999 is outside 1-65535 — no
range check and no `InvalidAddress` error exist in the code. -/
theorem C7_counterexample :
    Server.port (new "1.2.3.4:99999") = some 99999 ∧ (65535 : Int) < 99999 := by
  decide

/-- Claim C7 amended: the accessors perform no validation and never produce
an `InvalidAddress` value. With no `:` separator both `ip()` and `port()`
panic via `unwrap` (modelled as `none`); with a separator, `ip()` returns
the host part unconditionally, `port()` panics (`none`) when the text after
the first `:` fails `i32` parsing (e.g. a non-numeric port), and any string
the `i32` parser accepts succeeds with no 1-65535 range check — port 0,
negative ports and ports above 65535 included. -/
theorem C7_amended_no_validation :
    (∀ (h p : List Char) (v : Int), ':' ∉ h → parseI32 p = some v →
        Server.ip ⟨⟨h ++ ':' :: p⟩⟩ = some h ∧ Server.port ⟨⟨h ++ ':' :: p⟩⟩ = some v)
    ∧ (∀ h p : List Char, ':' ∉ h → parseI32 p = none →
        Server.ip ⟨⟨h ++ ':' :: p⟩⟩ = some h ∧ Server.port ⟨⟨h ++ ':' :: p⟩⟩ = none)
    ∧ (∀ a : List Char, ':' ∉ a → Server.ip ⟨⟨a⟩⟩ = none ∧ Server.port ⟨⟨a⟩⟩ = none) := by
  refine ⟨?_, ?_, ?_⟩
  · intro h p v hh hp
    have hdata : (String.mk (h ++ ':' :: p)).data = h ++ ':' :: p := rfl
    constructor
    · simp [Server.ip, hdata, splitOnce_append ':' hh p]
    · simp [Server.port, hdata, splitOnce_append ':' hh p, hp]
  · intro h p hh hp
    have hdata : (String.mk (h ++ ':' :: p)).data = h ++ ':' :: p := rfl
    constructor
    · simp [Server.ip, hdata, splitOnce_append ':' hh p]
    · simp [Server.port, hdata, splitOnce_append ':' hh p, hp]
  · intro a ha
    have hdata : (String.mk a).data = a := rfl
    constructor
    · simp [Server.ip, hdata, splitOnce_of_not_mem ':' ha]
    · simp [Server.port, hdata, splitOnce_of_not_mem ':' ha]

/-- Witness for the amended C7: the out-of-range port 70000 and the negative
port -1 are accepted, a non-numeric port makes only `port()` panic while
`ip()` still succeeds, and a separator-free address makes both panic. -/
theorem C7_witness :
    Server.ip ⟨⟨"9.9.9.9".data ++ ':' :: "70000".data⟩⟩ = some "9.9.9.9".data
    ∧ Server.port ⟨⟨"9.9.9.9".data ++ ':' :: "70000".data⟩⟩ = some 70000
    ∧ Server.port ⟨⟨"h".data ++ ':' :: "-1".data⟩⟩ = some (-1)
    ∧ Server.ip ⟨⟨"h".data ++ ':' :: "abc".data⟩⟩ = some "h".data
    ∧ Server.port ⟨⟨"h".data ++ ':' :: "abc".data⟩⟩ = none
    ∧ Server.ip ⟨⟨"localhost".data⟩⟩ = none :=
  ⟨(C7_amended_no_validation.1 "9.9.9.9".data "70000".data 70000 (by decide) (by decide)).1,
    (C7_amended_no_validation.1 "9.9.9.9".data "70000".data 70000 (by decide) (by decide)).2,
    (C7_amended_no_validation.1 "h".data "-1".data (-1) (by decide) (by decide)).2,
    (C7_amended_no_validation.2.1 "h".data "abc".data (by decide) (by decide)).1,
    (C7_amended_no_validation.2.1 "h".data "abc".data (by decide) (by decide)).2,
    (C7_amended_no_validation.2.2 "localhost".data (by decide)).1⟩

/-- Counterexample to claim C8: the stored address `1.2.3.4:007` parses
(ip `1.2.3.4`, port 7), but concatenating `ip()`, `:` and `port()` rebuilds
`1.2.3.4:7`, which differs from `address()`. -/
theorem C8_counterexample :
    Server.reconstruct (new "1.2.3.4:007") = some "1.2.3.4:7".data
    ∧ (new "1.2.3.4:007").address = "1.2.3.4:007"
    ∧ "1.2.3.4:7".data ≠ "1.2.3.4:007".data := by
  decide

/-- Claim C8 amended: the round-trip is lossless exactly for addresses whose
port substring is the canonical decimal rendering of its parsed value — for
every address `h:p` with `parse::<i32>(p) = some v` and `p` the decimal
rendering of `v`, the ip/colon/port concatenation rebuilds the stored
address exactly. -/
theorem C8_amended_roundtrip :
    ∀ (h p : List Char) (v : Int), ':' ∉ h → parseI32 p = some v →
      (toString v).data = p →
      Server.reconstruct (new ⟨h ++ ':' :: p⟩) = some (h ++ ':' :: p) := by
  intro h p v hh hp htos
  have hdata : (String.mk (h ++ ':' :: p)).data = h ++ ':' :: p := rfl
  simp [Server.reconstruct, Server.ip, Server.port, new, hdata,
    splitOnce_append ':' hh p, hp, htos]

/-- Witness for the amended C8 at `127.0.0.1:8080`. -/
theorem C8_witness :
    Server.reconstruct (new ⟨"127.0.0.1".data ++ ':' :: "8080".data⟩)
      = some ("127.0.0.1".data ++ ':' :: "8080".data) :=
  C8_amended_roundtrip "127.0.0.1".data "8080".data 8080
    (by decide) (by decide) (by decide)

/-- Counterexample to claim C4: the request text contains the well-formed
HTTP header line `Content-Length:42` (no space after the colon), yet the
extraction returns `none` instead of `some 42`, because the code takes the
token after the first space of the line. -/
theorem C4_counterexample :
    "Content-Length:42".data ∈ rustLines "GET / HTTP/1.1\r\nContent-Length:42\r\n\r\n".data
    ∧ contentLengthKey.isPrefixOf "Content-Length:42".data = true
    ∧ get_content_length "GET / HTTP/1.1\r\nContent-Length:42\r\n\r\n".data = none := by
  decide

/-- Claim C4 amended, over every request text: when the first line of the
request starting with `Content-Length:` (none of the lines before it has
that prefix) has the form `Content-Length: v` with a single space and a
numeric `v`, extraction returns `v` parsed; when that first line contains no
space at all (e.g. `Content-Length:42`), extraction returns nothing; when no
line starts with `Content-Length:`, extraction returns nothing and the
stored length stays 0. -/
theorem C4_amended_extraction :
    (∀ (req : List Char) (l1 : List (List Char)) (ds : List Char) (l2 : List (List Char)),
        rustLines req = l1 ++ ("Content-Length: ".data ++ ds) :: l2 →
        (∀ line ∈ l1, contentLengthKey.isPrefixOf line = false) →
        ds ≠ [] → ds.all Char.isDigit = true → digitsToNat ds < 2 ^ 64 →
        get_content_length req = some (digitsToNat ds))
    ∧ (∀ (req : List Char) (l1 : List (List Char)) (line : List Char) (l2 : List (List Char)),
        rustLines req = l1 ++ line :: l2 →
        (∀ l ∈ l1, contentLengthKey.isPrefixOf l = false) →
        contentLengthKey.isPrefixOf line = true →
        ' ' ∉ line →
        get_content_length req = none)
    ∧ (∀ req : List Char,
        (∀ line ∈ rustLines req, contentLengthKey.isPrefixOf line = false) →
        get_content_length req = none)
    ∧ (∀ (s : ConnState) (chunk : List Char), s.content_length = 0 →
        get_content_length (s.content ++ chunk) = none →
        (handle_client_read s chunk).1.content_length = 0) := by
  refine ⟨?_, ?_, ?_, ?_⟩
  · intro req l1 ds l2 hdec hfirst hne hd hlt
    have hall : ∀ c ∈ ds, c.isDigit = true := by simpa using hd
    have hno_sp : ' ' ∉ ds := fun m => (isDigit_facts (hall _ m)).2.1 rfl
    have hws : ∀ c ∈ ds, c.isWhitespace = false :=
      fun c m => (isDigit_facts (hall c m)).2.2.2.2.2
    have hkey : "Content-Length: ".data = contentLengthKey ++ [' '] := by decide
    have hpre : contentLengthKey.isPrefixOf ("Content-Length: ".data ++ ds) = true := by
      rw [hkey, List.append_assoc]
      exact isPrefixOf_append_self _ _
    have hfind : (rustLines req).find? (fun line => contentLengthKey.isPrefixOf line)
        = some ("Content-Length: ".data ++ ds) := by
      rw [hdec, find?_append_of_none hfirst, List.find?_cons_of_pos _ (by exact hpre)]
    have hsp : splitChar ' ' ("Content-Length: ".data ++ ds) = [contentLengthKey, ds] := by
      rw [hkey, List.append_assoc]
      show splitChar ' ' (contentLengthKey ++ ' ' :: ds) = _
      rw [splitChar_append ' ' (by decide) ds, splitChar_of_not_mem ' ' hno_sp]
    show (((rustLines req).find? (fun line => contentLengthKey.isPrefixOf line)).bind
        (fun line => (splitChar ' ' line)[1]?)).bind
        (fun value => parseUsize (trimChars value)) = some (digitsToNat ds)
    rw [hfind]
    show ((splitChar ' ' ("Content-Length: ".data ++ ds))[1]?).bind
        (fun value => parseUsize (trimChars value)) = some (digitsToNat ds)
    rw [hsp]
    show parseUsize (trimChars ds) = some (digitsToNat ds)
    rw [trimChars_of_forall_not hws, parseUsize_digits hne hd hlt]
  · intro req l1 line l2 hdec hfirst hline hnsp
    have hfind : (rustLines req).find? (fun l => contentLengthKey.isPrefixOf l)
        = some line := by
      rw [hdec, find?_append_of_none hfirst, List.find?_cons_of_pos _ (by exact hline)]
    show (((rustLines req).find? (fun l => contentLengthKey.isPrefixOf l)).bind
        (fun l => (splitChar ' ' l)[1]?)).bind
        (fun value => parseUsize (trimChars value)) = none
    rw [hfind]
    show ((splitChar ' ' line)[1]?).bind (fun value => parseUsize (trimChars value)) = none
    rw [splitChar_of_not_mem ' ' hnsp]
    rfl
  · intro req hnone
    have hf : (rustLines req).find? (fun line => contentLengthKey.isPrefixOf line) = none := by
      apply List.find?_eq_none.mpr
      intro x hx
      simp [hnone x hx]
    show (((rustLines req).find? (fun line => contentLengthKey.isPrefixOf line)).bind
        (fun line => (splitChar ' ' line)[1]?)).bind
        (fun value => parseUsize (trimChars value)) = none
    rw [hf]
    rfl
  · intro s chunk h1 h2
    simp [handle_client_read, h1, h2]

/-- Witness for the amended C4: the spaced header extracts 42, the same
header without a space extracts nothing, and a header-free request extracts
nothing. -/
theorem C4_witness :
    get_content_length "GET / HTTP/1.1\r\nContent-Length: 42\r\n\r\n".data
      = some (digitsToNat "42".data)
    ∧ get_content_length "GET / HTTP/1.1\r\nContent-Length:42\r\n\r\n".data = none
    ∧ get_content_length "GET / HTTP/1.1\r\nHost: x\r\n\r\n".data = none :=
  ⟨C4_amended_extraction.1 "GET / HTTP/1.1\r\nContent-Length: 42\r\n\r\n".data
      ["GET / HTTP/1.1".data] "42".data [[]]
      (by decide) (by decide) (by decide) (by decide) (by decide),
    C4_amended_extraction.2.1 "GET / HTTP/1.1\r\nContent-Length:42\r\n\r\n".data
      ["GET / HTTP/1.1".data] "Content-Length:42".data [[]]
      (by decide) (by decide) (by decide) (by decide),
    C4_amended_extraction.2.2.1 "GET / HTTP/1.1\r\nHost: x\r\n\r\n".data (by decide)⟩

end MiniRest
